import Mathlib

/-!
Verification of the TSDF fusion engine (`fusion.py`).

The development shallowly embeds the per-voxel semantics of the two fusion
paths (the CUDA kernel `integrate` and the vectorised CPU path of
`TSDFVolume.integrate`), the colour pack/unpack codec, the constructor's
volume-dimension computation, the GPU dispatch arithmetic, and the
`reset_visible` operation.  Machine floats are modelled as exact rationals;
`floorf`/`np.floor` become `Int.floor`, `roundf` becomes round-half-away-
from-zero and `np.round` becomes round-half-to-even.
-/

/-- The five per-voxel fields of the volume (`_tsdf_vol_cpu`, `_weight_vol_cpu`,
`_occl_vol_cpu`, `_color_vol_cpu`, `_mask_vol_cpu`), restricted to a single
voxel.  `mask` is the unsigned 32-bit label accumulator, modelled as `ℕ`. -/
structure VoxelState where
  tsdf : ℚ
  weight : ℚ
  occl : ℚ
  color : ℚ
  mask : ℕ
deriving Repr, DecidableEq

/-- Initial per-voxel state from the constructor (`fusion.py` lines 67-72):
`tsdf = 1`, `weight = 0`, `occl = -100`, `color = 0`, `mask = 0`. -/
def initVoxel : VoxelState :=
  { tsdf := 1, weight := 0, occl := -100, color := 0, mask := 0 }

/-- `roundf` of the CUDA kernel: round half away from zero. -/
def roundQ (q : ℚ) : ℤ :=
  if q < 0 then -⌊-q + 1/2⌋ else ⌊q + 1/2⌋

/-- `np.round` of the CPU path: round half to even (IEEE banker's rounding). -/
def roundHalfEvenQ (q : ℚ) : ℤ :=
  if q - ⌊q⌋ < 1/2 then ⌊q⌋
  else if 1/2 < q - ⌊q⌋ then ⌊q⌋ + 1
  else if 2 ∣ ⌊q⌋ then ⌊q⌋ else ⌊q⌋ + 1

/-- Blue channel extracted from a packed colour: `old_b = floorf(c/(256*256))`
(kernel line 174; CPU line 349 `np.floor(old_color / self._color_const)`). -/
def unpackB (c : ℚ) : ℚ :=
  ((⌊c / 65536⌋ : ℤ) : ℚ)

/-- Green channel: `old_g = floorf((c - old_b*256*256)/256)` (kernel line 175;
CPU line 350). -/
def unpackG (c : ℚ) : ℚ :=
  ((⌊(c - unpackB c * 65536) / 256⌋ : ℤ) : ℚ)

/-- Red channel: `old_r = c - old_b*256*256 - old_g*256` (kernel line 176;
CPU line 351). -/
def unpackR (c : ℚ) : ℚ :=
  c - unpackB c * 65536 - unpackG c * 256

/-- Full unpack of a packed colour into an `(r, g, b)` triple. -/
def unpackQ (c : ℚ) : ℚ × ℚ × ℚ :=
  (unpackR c, unpackG c, unpackB c)

/-- Colour packing (`fusion.py` line 272):
`color_im[...,2]*65536 + color_im[...,1]*256 + color_im[...,0]`, i.e.
`B*65536 + G*256 + R`.  The surrounding `np.floor` of line 272 is the
identity on integer channel values. -/
def packColor (r g b : ℚ) : ℚ :=
  b * 65536 + g * 256 + r

/-- The five host-side dense fields of `TSDFVolume`, indexed by the flattened
voxel index. -/
structure VoxGrid where
  tsdf : ℕ → ℚ
  weight : ℕ → ℚ
  occl : ℕ → ℚ
  color : ℕ → ℚ
  mask : ℕ → ℕ

/-- `TSDFVolume.reset_visible` (`fusion.py` lines 22-35): zero the `weight`
and `mask` volumes; the `tsdf`, `occl` and `color` updates are commented out
in the source and hence not performed. -/
def reset_visible (g : VoxGrid) : VoxGrid :=
  { g with weight := fun _ => 0, mask := fun _ => 0 }

/-- One frame's observation of one fixed voxel, as both fusion paths compute
it.  `u, v` is the depth-camera pixel (`pixel_x, pixel_y` / `pix_x, pix_y`),
`qz` the depth-camera z (`cam_pt_z` / `pix_z`), `d = depth_im[v,u]`,
`mDepth = mask_im[v,u]` (the depth-camera gather of the GPU kernel, line
146), `ru, rv` the RGB-camera pixel, `cRgb = color_im[rv,ru]` and
`mRgb = mask_im[rv,ru]` (the RGB-camera gathers of the CPU path, lines
352 and 363).  `margin` is `trunc_margin` and `obsW` is `obs_weight`. -/
structure Obs where
  W : ℤ
  H : ℤ
  margin : ℚ
  obsW : ℚ
  u : ℤ
  v : ℤ
  qz : ℚ
  d : ℚ
  mDepth : ℕ
  ru : ℤ
  rv : ℤ
  cRgb : ℚ
  mRgb : ℕ
deriving Repr

/-- The CUDA kernel `integrate` (`fusion.py` lines 136-184) restricted to one
voxel.  Sequencing follows the kernel exactly: frustum test (`qz < 0`, line
138), zero-depth test (line 142), mask OR (line 147), occlusion max with the
raw disparity (line 151), truncation early-return (line 152), clamped
distance `min(1, diff/margin)` (line 154), weighted tsdf/weight update
(lines 157-159), RGB frustum re-test reusing the depth-camera `qz` (line
170), and the colour blend with `fmin(roundf(..), 255)` (lines 173-184).
The early returns only skip the later writes, so they are expressed as a
conditional colour value. -/
def gpuStep (o : Obs) (s : VoxelState) : VoxelState :=
  if o.u < 0 ∨ o.u ≥ o.W ∨ o.v < 0 ∨ o.v ≥ o.H ∨ o.qz < 0 then s
  else if o.d = 0 then s
  else
    let mask1 := s.mask ||| o.mDepth
    let diff := o.d - o.qz
    let occl1 := max s.occl diff
    if diff < -o.margin then
      { s with mask := mask1, occl := occl1 }
    else
      let dist := min 1 (diff / o.margin)
      let wOld := s.weight
      let wNew := wOld + o.obsW
      let color1 :=
        if o.ru < 0 ∨ o.ru ≥ o.W ∨ o.rv < 0 ∨ o.rv ≥ o.H ∨ o.qz < 0 then s.color
        else
          let nb := min ((roundQ ((unpackB s.color * wOld + o.obsW * unpackB o.cRgb) / wNew) : ℤ) : ℚ) 255
          let ng := min ((roundQ ((unpackG s.color * wOld + o.obsW * unpackG o.cRgb) / wNew) : ℤ) : ℚ) 255
          let nr := min ((roundQ ((unpackR s.color * wOld + o.obsW * unpackR o.cRgb) / wNew) : ℤ) : ℚ) 255
          nb * 65536 + ng * 256 + nr
      { tsdf := (s.tsdf * wOld + o.obsW * dist) / wNew,
        weight := wNew,
        occl := occl1,
        color := color1,
        mask := mask1 }

/-- The CPU path of `TSDFVolume.integrate` (`fusion.py` lines 305-364)
restricted to one voxel.  `valid_pix` (lines 314-318) gates the depth gather
(`depth_val` is 0 outside it, line 319-320); `valid_pts = depth_val != 0`
(line 326) gates all writes; there is no truncation test (line 324 is
commented out) and no clamp on `dist = diff/margin` (line 327).  The tsdf
and weight update is `integrate_tsdf` (lines 242-252) — its `w_new`
allocation is commented out at line 247, so the Python code actually fails
with an undefined name; the embedding takes the loop body's assignment
`w_new[i] = w_old[i] + obs_weight` as its evident definition.  The occlusion
update uses the NORMALISED `dist` (line 251), not the raw disparity.  Colour
(lines 348-359, `np.minimum(255, np.round(..))`) and mask (line 364) are
gathered at the RGB-camera pixel with no bounds re-check. -/
def cpuStep (o : Obs) (s : VoxelState) : VoxelState :=
  let dval := if 0 ≤ o.u ∧ o.u < o.W ∧ 0 ≤ o.v ∧ o.v < o.H ∧ 0 < o.qz then o.d else 0
  if dval = 0 then s
  else
    let dist := (dval - o.qz) / o.margin
    let wOld := s.weight
    let wNew := wOld + o.obsW
    let nb := min 255 ((roundHalfEvenQ ((wOld * unpackB s.color + o.obsW * unpackB o.cRgb) / wNew) : ℤ) : ℚ)
    let ng := min 255 ((roundHalfEvenQ ((wOld * unpackG s.color + o.obsW * unpackG o.cRgb) / wNew) : ℤ) : ℚ)
    let nr := min 255 ((roundHalfEvenQ ((wOld * unpackR s.color + o.obsW * unpackR o.cRgb) / wNew) : ℤ) : ℚ)
    { tsdf := (wOld * s.tsdf + o.obsW * dist) / wNew,
      weight := wNew,
      occl := max s.occl dist,
      color := nb * 65536 + ng * 256 + nr,
      mask := s.mask ||| o.mRgb }

/-- A sequence of integrate calls observing one voxel, GPU path. -/
def runGpu (l : List Obs) (s : VoxelState) : VoxelState :=
  l.foldl (fun st o => gpuStep o st) s

/-- A sequence of integrate calls observing one voxel, CPU path. -/
def runCpu (l : List Obs) (s : VoxelState) : VoxelState :=
  l.foldl (fun st o => cpuStep o st) s

/-- A call in which the voxel passes the depth-camera frustum test of both
paths (`0 ≤ u < W`, `0 ≤ v < H`, `0 < qz`), the depth-validity test
(`d ≠ 0`), and the GPU truncation test (`d - qz ≥ -margin`). -/
def obsPass (o : Obs) : Prop :=
  0 ≤ o.u ∧ o.u < o.W ∧ 0 ≤ o.v ∧ o.v < o.H ∧ 0 < o.qz ∧ o.d ≠ 0 ∧
    -o.margin ≤ o.d - o.qz

/-- The GPU path's post-truncation distance `min(1, (d - qz)/margin)`. -/
def gpuDist (o : Obs) : ℚ :=
  min 1 ((o.d - o.qz) / o.margin)

/-- The CPU path's (unclamped) distance `(d - qz)/margin`. -/
def cpuDist (o : Obs) : ℚ :=
  (o.d - o.qz) / o.margin

/-- Total observation weight of a call sequence. -/
def sumW (l : List Obs) : ℚ :=
  (l.map fun o => o.obsW).sum

/-- Weighted sum of the GPU path's post-truncation distances. -/
def sumGpuWS (l : List Obs) : ℚ :=
  (l.map fun o => o.obsW * gpuDist o).sum

/-- Weighted sum of the CPU path's distances. -/
def sumCpuWS (l : List Obs) : ℚ :=
  (l.map fun o => o.obsW * cpuDist o).sum

/-- The top three rows of a 4x4 homogeneous transform, as consumed by
`rigid_transform` (`fusion.py` lines 484-489); the fourth row is not read. -/
structure Mat34 where
  a00 : ℚ
  a01 : ℚ
  a02 : ℚ
  a03 : ℚ
  a10 : ℚ
  a11 : ℚ
  a12 : ℚ
  a13 : ℚ
  a20 : ℚ
  a21 : ℚ
  a22 : ℚ
  a23 : ℚ
deriving Repr, DecidableEq

/-- `rigid_transform` applied to a single point: `(T * [p; 1])[:3]`. -/
def rigidApply (T : Mat34) (p : ℚ × ℚ × ℚ) : ℚ × ℚ × ℚ :=
  (T.a00 * p.1 + T.a01 * p.2.1 + T.a02 * p.2.2 + T.a03,
   T.a10 * p.1 + T.a11 * p.2.1 + T.a12 * p.2.2 + T.a13,
   T.a20 * p.1 + T.a21 * p.2.1 + T.a22 * p.2.2 + T.a23)

/-- The entries of a 3x3 pinhole intrinsics matrix that `cam2pix` reads:
`fx = intr[0,0]`, `fy = intr[1,1]`, `cx = intr[0,2]`, `cy = intr[1,2]`. -/
structure Intr where
  fx : ℚ
  fy : ℚ
  cx : ℚ
  cy : ℚ
deriving Repr, DecidableEq

/-- `TSDFVolume.cam2pix` (`fusion.py` lines 228-238) on one point:
`(round(x*fx/z + cx), round(y*fy/z + cy))`. -/
def cam2pix (intr : Intr) (pt : ℚ × ℚ × ℚ) : ℤ × ℤ :=
  (roundQ (pt.1 * intr.fx / pt.2.2 + intr.cx),
   roundQ (pt.2.1 * intr.fy / pt.2.2 + intr.cy))

/-- `TSDFVolume.vox2world` (`fusion.py` lines 215-224) on one voxel:
`origin + size * coord`. -/
def vox2world (origin : ℚ × ℚ × ℚ) (coord : ℤ × ℤ × ℤ) (size : ℚ) : ℚ × ℚ × ℚ :=
  (origin.1 + size * (coord.1 : ℚ),
   origin.2.1 + size * (coord.2.1 : ℚ),
   origin.2.2 + size * (coord.2.2 : ℚ))

/-- Depth-camera pixel of a world point on the CPU path (`fusion.py` lines
307-311): transform by `inv(cam_pose)` (here the already-inverted matrix is
passed), then `cam2pix`. -/
def cpuDepthPix (invCamPose : Mat34) (camIntr : Intr) (p : ℚ × ℚ × ℚ) : ℤ × ℤ :=
  cam2pix camIntr (rigidApply invCamPose p)

/-- Depth-camera z coordinate `pix_z` of a world point on the CPU path. -/
def cpuPixZ (invCamPose : Mat34) (p : ℚ × ℚ × ℚ) : ℚ :=
  (rigidApply invCamPose p).2.2

/-- RGB-camera pixel of a world point on the CPU path (`fusion.py` lines
341-345), used without any bounds re-check for the colour and mask gathers
(lines 352 and 363). -/
def cpuRgbPix (invRgbPose : Mat34) (rgbIntr : Intr) (p : ℚ × ℚ × ℚ) : ℤ × ℤ :=
  cam2pix rgbIntr (rigidApply invRgbPose p)

/-- Pixel-bounds predicate `0 ≤ x < W ∧ 0 ≤ y < H`. -/
def inBounds (W H : ℤ) (px : ℤ × ℤ) : Prop :=
  0 ≤ px.1 ∧ px.1 < W ∧ 0 ≤ px.2 ∧ px.2 < H

/-- Volume dimensions, the observable output of a successful construction. -/
structure VolConfig where
  dimX : ℤ
  dimY : ℤ
  dimZ : ℤ
deriving Repr, DecidableEq

/-- Entry `vol_bnds[i][j]` of the bounds array (0 when out of range; the
shape check rules the out-of-range case out before any read). -/
def bndAt (bnds : List (List ℚ)) (i j : ℕ) : ℚ :=
  (bnds.getD i []).getD j 0

/-- `vol_dim[i] = ceil((vol_bnds[i,1] - vol_bnds[i,0]) / voxel_size)`
(`fusion.py` line 57). -/
def volDimAxis (bnds : List (List ℚ)) (vs : ℚ) (i : ℕ) : ℤ :=
  ⌈(bndAt bnds i 1 - bndAt bnds i 0) / vs⌉

/-- The constructor's only explicit validation (`fusion.py` line 47):
`vol_bnds.shape == (3, 2)`. -/
def shapeOkB (bnds : List (List ℚ)) : Bool :=
  bnds.length = 3 && bnds.all fun row => row.length = 2

/-- `TSDFVolume.__init__` (`fusion.py` lines 38-72), modelled up to the
allocation of the voxel volumes.  `none` models a raised exception: the
failed shape assert (line 47), the non-finite dimension produced by
dividing by `voxel_size = 0` (line 57; the float quotient is `inf`/`nan`
and its integer cast feeds a negative garbage dimension to `np.ones`), or a
negative computed dimension rejected by `np.ones` (line 67).  There is no
check that `vol_bnds[:,1] > vol_bnds[:,0]` and no check that
`voxel_size > 0`: a zero (or even negative, when the quotient stays above
-1) extent yields dimension 0 and construction succeeds. -/
def mkTSDFVolume (bnds : List (List ℚ)) (vs : ℚ) : Option VolConfig :=
  if shapeOkB bnds = true then
    if vs = 0 then none
    else
      if volDimAxis bnds vs 0 < 0 ∨ volDimAxis bnds vs 1 < 0 ∨ volDimAxis bnds vs 2 < 0 then none
      else some ⟨volDimAxis bnds vs 0, volDimAxis bnds vs 1, volDimAxis bnds vs 2⟩
  else none

/-- `int(np.ceil(float(a) / float(b)))` on naturals. -/
def ceilDiv (a b : ℕ) : ℕ :=
  (a + b - 1) / b

/-- `int(np.floor(x ** (1/e)))` on a natural radicand: the largest `k` with
`k ^ e ≤ n`. -/
def floorRoot (e n : ℕ) : ℕ :=
  (((List.range (n + 2)).filter fun k => k ^ e ≤ n).foldr max 0)

/-- `n_blocks = ceil(N / max_threads_per_block)` (`fusion.py` line 192). -/
def nBlocks (N T : ℕ) : ℕ :=
  ceilDiv N T

/-- `grid_dim_x = min(MAX_GRID_DIM_X, floor(cbrt(n_blocks)))` (line 193). -/
def gridDimX (maxX N T : ℕ) : ℕ :=
  min maxX (floorRoot 3 (nBlocks N T))

/-- `grid_dim_y = min(MAX_GRID_DIM_Y, floor(sqrt(n_blocks / grid_dim_x)))`
(line 194); `floor(sqrt(a/b))` on nonnegative reals equals
`floorRoot 2 (a / b)` with natural division. -/
def gridDimY (maxX maxY N T : ℕ) : ℕ :=
  min maxY (floorRoot 2 (nBlocks N T / gridDimX maxX N T))

/-- `grid_dim_z = min(MAX_GRID_DIM_Z, ceil(n_blocks / (gx*gy)))` (line 195). -/
def gridDimZ (maxX maxY maxZ N T : ℕ) : ℕ :=
  min maxZ (ceilDiv (nBlocks N T) (gridDimX maxX N T * gridDimY maxX maxY N T))

/-- `n_gpu_loops = ceil(N / (gx*gy*gz*T))` (`fusion.py` line 197). -/
def nGpuLoops (N gx gy gz T : ℕ) : ℕ :=
  ceilDiv N (gx * gy * gz * T)

/-- The kernel's voxel index (`fusion.py` lines 107-110):
`loop*gx*gy*gz*T + (bz*gy*gx + by*gx + bx)*T + tx`. -/
def voxelIdx (loopIdx gx gy gz T bZ bY bX tX : ℕ) : ℕ :=
  loopIdx * gx * gy * gz * T + (bZ * gy * gx + bY * gx + bX) * T + tX

/-- The kernel's early-return bounds guard (`fusion.py` line 114):
the thread returns iff `voxel_idx > vol_dim_x*vol_dim_y*vol_dim_z`. -/
def kernelGuardSkips (idx N : ℕ) : Bool :=
  idx > N

/-- A baseline in-frustum observation of a voxel in a 1x1 image: pixel
`(0,0)`, camera depth `qz = 1/2`, measured depth `d = 1` (disparity `1/2`),
`trunc_margin = 1`, `obs_weight = 1`, mask value 3, identically placed RGB
camera. -/
def oA : Obs :=
  { W := 1, H := 1, margin := 1, obsW := 1, u := 0, v := 0, qz := 1/2,
    d := 1, mDepth := 3, ru := 0, rv := 0, cRgb := 0, mRgb := 3 }

/-- A second observation of the same voxel with `obs_weight = 3` and depth
`1/4` (disparity `-1/4`, above the truncation threshold). -/
def oB : Obs :=
  { oA with obsW := 3, d := 1/4 }

/-- An observation whose disparity `1/5 - 1 = -4/5` lies below the
truncation threshold `-trunc_margin = -1/10`. -/
def oTrunc : Obs :=
  { oA with margin := 1/10, qz := 1, d := 1/5 }

/-- Spec scenario S1 as the CPU path computes it: `trunc_margin = 1/10`
(voxel size 0.02), `qz = 1/100`, depth `1`; the unclamped distance is
`(1 - 1/100)/(1/10) = 99/10`. -/
def oS1cpu : Obs :=
  { oA with margin := 1/10, qz := 1/100, d := 1 }

/-- First frame of spec scenario S6: depth `1/2` at `qz = 1/100`,
`trunc_margin = 1/10`. -/
def oOcclA : Obs :=
  { oA with margin := 1/10, qz := 1/100, d := 1/2 }

/-- Second frame of spec scenario S6: depth `2` at `qz = 1/100`. -/
def oOcclB : Obs :=
  { oA with margin := 1/10, qz := 1/100, d := 2 }

/-- An observation with `qz = 0` exactly and an in-bounds pixel.  On the
hardware this arises for a voxel at the depth camera's centre: `qx/qz` and
`qy/qz` are `0/0 = nan`, and the CUDA float-to-int conversion of `nan` is 0,
an in-bounds pixel; the rational embedding's division by zero also yields
pixel `(0,0)`. -/
def oQz0 : Obs :=
  { oA with qz := 0 }

/-- An observation whose pixel falls left of the image (`u = -1`). -/
def oOut : Obs :=
  { oA with u := -1 }

/-- Bounds array `[[0,0],[0,1],[0,1]]`: shape (3,2), but with
`min = max = 0` on the first axis. -/
def cbnds : List (List ℚ) :=
  [[0, 0], [0, 1], [0, 1]]

/-- An identity (inverted) pose: camera frame equals the world frame. -/
def mId : Mat34 :=
  ⟨1, 0, 0, 0, 0, 1, 0, 0, 0, 0, 1, 0⟩

/-- An (inverted) pose translating world points by `+5` in camera x. -/
def mShift : Mat34 :=
  ⟨1, 0, 0, 5, 0, 1, 0, 0, 0, 0, 1, 0⟩

/-- Identity-like intrinsics: `fx = fy = 1`, `cx = cy = 0`. -/
def intrId : Intr :=
  ⟨1, 1, 0, 0⟩

/-- The world point `(0, 0, 1)`, one metre in front of the world origin. -/
def pC10 : ℚ × ℚ × ℚ :=
  (0, 0, 1)

/-- C5: for every integer triple `(r,g,b)` with each channel in `[0,255]`,
unpacking the packed value `b*65536 + g*256 + r` with the source's floor
formulas returns exactly `(r, g, b)`. -/
theorem color_pack_unpack_roundtrip (r g b : ℕ)
    (hr : r ≤ 255) (hg : g ≤ 255) (hb : b ≤ 255) :
    unpackQ (packColor (r : ℚ) (g : ℚ) (b : ℚ)) = ((r : ℚ), (g : ℚ), (b : ℚ)) := by
  have hrq : (r : ℚ) ≤ 255 := by exact_mod_cast hr
  have hgq : (g : ℚ) ≤ 255 := by exact_mod_cast hg
  have hbq : (b : ℚ) ≤ 255 := by exact_mod_cast hb
  have hr0 : (0 : ℚ) ≤ (r : ℚ) := Nat.cast_nonneg r
  have hg0 : (0 : ℚ) ≤ (g : ℚ) := Nat.cast_nonneg g
  have hb0 : (0 : ℚ) ≤ (b : ℚ) := Nat.cast_nonneg b
  have hB : unpackB (packColor (r : ℚ) (g : ℚ) (b : ℚ)) = (b : ℚ) := by
    have hfloor : ⌊packColor (r : ℚ) (g : ℚ) (b : ℚ) / 65536⌋ = (b : ℤ) := by
      rw [Int.floor_eq_iff]
      constructor
      · rw [le_div_iff₀ (by norm_num : (0:ℚ) < 65536)]
        push_cast
        unfold packColor
        nlinarith
      · rw [div_lt_iff₀ (by norm_num : (0:ℚ) < 65536)]
        push_cast
        unfold packColor
        nlinarith
    unfold unpackB
    rw [hfloor]
    norm_num
  have hG : unpackG (packColor (r : ℚ) (g : ℚ) (b : ℚ)) = (g : ℚ) := by
    have hfloor : ⌊(packColor (r : ℚ) (g : ℚ) (b : ℚ) -
        unpackB (packColor (r : ℚ) (g : ℚ) (b : ℚ)) * 65536) / 256⌋ = (g : ℤ) := by
      rw [hB]
      have harg : packColor (r : ℚ) (g : ℚ) (b : ℚ) - (b : ℚ) * 65536
          = (g : ℚ) * 256 + (r : ℚ) := by unfold packColor; ring
      rw [harg, Int.floor_eq_iff]
      constructor
      · rw [le_div_iff₀ (by norm_num : (0:ℚ) < 256)]
        push_cast
        nlinarith
      · rw [div_lt_iff₀ (by norm_num : (0:ℚ) < 256)]
        push_cast
        nlinarith
    unfold unpackG
    rw [hfloor]
    norm_num
  have hR : unpackR (packColor (r : ℚ) (g : ℚ) (b : ℚ)) = (r : ℚ) := by
    unfold unpackR
    rw [hB, hG]
    unfold packColor
    ring
  unfold unpackQ
  rw [hB, hG, hR]

/-- C5 witness: the round-trip at the concrete triple `(100, 150, 200)`
(the colour of spec scenario S1, packed value `13146724`). -/
theorem color_pack_unpack_roundtrip_witness :
    (100 : ℕ) ≤ 255 ∧ (150 : ℕ) ≤ 255 ∧ (200 : ℕ) ≤ 255 ∧
    unpackQ (packColor ((100 : ℕ) : ℚ) ((150 : ℕ) : ℚ) ((200 : ℕ) : ℚ))
      = (((100 : ℕ) : ℚ), ((150 : ℕ) : ℚ), ((200 : ℕ) : ℚ)) :=
  ⟨by norm_num, by norm_num, by norm_num,
    color_pack_unpack_roundtrip 100 150 200 (by norm_num) (by norm_num) (by norm_num)⟩

/-- C7: `reset_visible` zeroes the `weight` and `mask` fields at every voxel
and leaves `tsdf`, `occl` and `color` unchanged at every voxel. -/
theorem reset_visible_spec (g : VoxGrid) (i : ℕ) :
    (reset_visible g).weight i = 0 ∧ (reset_visible g).mask i = 0 ∧
    (reset_visible g).tsdf i = g.tsdf i ∧ (reset_visible g).occl i = g.occl i ∧
    (reset_visible g).color i = g.color i :=
  ⟨rfl, rfl, rfl, rfl, rfl⟩

/-- Helper: the GPU kernel's per-voxel effect when the voxel passes the
frustum test, has non-zero depth, and survives truncation. -/
theorem gpuStep_update_eval (o : Obs) (s : VoxelState)
    (hu0 : 0 ≤ o.u) (huW : o.u < o.W) (hv0 : 0 ≤ o.v) (hvH : o.v < o.H)
    (hqz : 0 ≤ o.qz) (hd : o.d ≠ 0) (htr : -o.margin ≤ o.d - o.qz) :
    (gpuStep o s).weight = s.weight + o.obsW ∧
    (gpuStep o s).tsdf = (s.tsdf * s.weight + o.obsW * gpuDist o) / (s.weight + o.obsW) ∧
    (gpuStep o s).occl = max s.occl (o.d - o.qz) ∧
    (gpuStep o s).mask = s.mask ||| o.mDepth := by
  have h1 : ¬(o.u < 0 ∨ o.u ≥ o.W ∨ o.v < 0 ∨ o.v ≥ o.H ∨ o.qz < 0) := by
    push_neg
    exact ⟨hu0, huW, hv0, hvH, hqz⟩
  have h3 : ¬(o.d - o.qz < -o.margin) := not_lt.2 htr
  refine ⟨?_, ?_, ?_, ?_⟩ <;>
    simp only [gpuStep, if_neg h1, if_neg hd, if_neg h3, gpuDist]

/-- Helper: the GPU kernel's per-voxel effect when the voxel passes the
frustum and depth tests but is truncated (`d - qz < -margin`): only the
mask and occlusion fields are written. -/
theorem gpuStep_trunc_eval (o : Obs) (s : VoxelState)
    (hu0 : 0 ≤ o.u) (huW : o.u < o.W) (hv0 : 0 ≤ o.v) (hvH : o.v < o.H)
    (hqz : 0 ≤ o.qz) (hd : o.d ≠ 0) (htr : o.d - o.qz < -o.margin) :
    gpuStep o s =
      { s with mask := s.mask ||| o.mDepth, occl := max s.occl (o.d - o.qz) } := by
  have h1 : ¬(o.u < 0 ∨ o.u ≥ o.W ∨ o.v < 0 ∨ o.v ≥ o.H ∨ o.qz < 0) := by
    push_neg
    exact ⟨hu0, huW, hv0, hvH, hqz⟩
  simp only [gpuStep, if_neg h1, if_neg hd, if_pos htr]

/-- Helper: whenever the voxel passes the GPU frustum and depth tests, the
occlusion and mask writes happen (with the raw disparity), truncated or
not. -/
theorem gpuStep_occl_mask_eval (o : Obs) (s : VoxelState)
    (hu0 : 0 ≤ o.u) (huW : o.u < o.W) (hv0 : 0 ≤ o.v) (hvH : o.v < o.H)
    (hqz : 0 ≤ o.qz) (hd : o.d ≠ 0) :
    (gpuStep o s).occl = max s.occl (o.d - o.qz) ∧
    (gpuStep o s).mask = s.mask ||| o.mDepth := by
  rcases lt_or_le (o.d - o.qz) (-o.margin) with htr | htr
  · rw [gpuStep_trunc_eval o s hu0 huW hv0 hvH hqz hd htr]
    exact ⟨rfl, rfl⟩
  · obtain ⟨_, _, ho, hm⟩ := gpuStep_update_eval o s hu0 huW hv0 hvH hqz hd htr
    exact ⟨ho, hm⟩

/-- Helper: the GPU kernel leaves the voxel untouched when the frustum test
fails. -/
theorem gpuStep_skip (o : Obs) (s : VoxelState)
    (h : o.u < 0 ∨ o.u ≥ o.W ∨ o.v < 0 ∨ o.v ≥ o.H ∨ o.qz < 0) :
    gpuStep o s = s := by
  simp only [gpuStep, if_pos h]

/-- Helper: the CPU path's per-voxel effect on a voxel of `valid_pts`
(valid pixel, positive camera depth, non-zero measured depth). -/
theorem cpuStep_valid_eval (o : Obs) (s : VoxelState)
    (hu0 : 0 ≤ o.u) (huW : o.u < o.W) (hv0 : 0 ≤ o.v) (hvH : o.v < o.H)
    (hqz : 0 < o.qz) (hd : o.d ≠ 0) :
    (cpuStep o s).weight = s.weight + o.obsW ∧
    (cpuStep o s).tsdf = (s.weight * s.tsdf + o.obsW * cpuDist o) / (s.weight + o.obsW) ∧
    (cpuStep o s).occl = max s.occl (cpuDist o) ∧
    (cpuStep o s).mask = s.mask ||| o.mRgb := by
  have hC : 0 ≤ o.u ∧ o.u < o.W ∧ 0 ≤ o.v ∧ o.v < o.H ∧ 0 < o.qz :=
    ⟨hu0, huW, hv0, hvH, hqz⟩
  refine ⟨?_, ?_, ?_, ?_⟩ <;>
    simp only [cpuStep, if_pos hC, if_neg hd, cpuDist]

/-- Helper: the CPU path leaves the voxel untouched when the frustum test
fails (then `depth_val = 0` and the voxel is not in `valid_pts`). -/
theorem cpuStep_skip (o : Obs) (s : VoxelState)
    (h : o.u < 0 ∨ o.u ≥ o.W ∨ o.v < 0 ∨ o.v ≥ o.H ∨ o.qz < 0) :
    cpuStep o s = s := by
  have hnc : ¬(0 ≤ o.u ∧ o.u < o.W ∧ 0 ≤ o.v ∧ o.v < o.H ∧ 0 < o.qz) := by
    intro hc
    obtain ⟨c1, c2, c3, c4, c5⟩ := hc
    rcases h with h | h | h | h | h <;> linarith
  simp only [cpuStep, if_neg hnc]
  simp

/-- Helper: total observation weight of a list of positive-weight calls is
nonnegative. -/
theorem sumW_nonneg (l : List Obs) (h : ∀ o ∈ l, 0 < o.obsW) : 0 ≤ sumW l := by
  induction l with
  | nil => simp [sumW]
  | cons o t ih =>
    have ho := le_of_lt (h o (List.mem_cons_self o t))
    have ht := ih fun x hx => h x (List.mem_cons_of_mem o hx)
    simp only [sumW, List.map_cons, List.sum_cons] at ht ⊢
    linarith

/-- Helper: total observation weight of a nonempty list of positive-weight
calls is positive. -/
theorem sumW_pos (l : List Obs) (hne : l ≠ []) (h : ∀ o ∈ l, 0 < o.obsW) :
    0 < sumW l := by
  cases l with
  | nil => exact absurd rfl hne
  | cons o t =>
    have ho := h o (List.mem_cons_self o t)
    have ht := sumW_nonneg t fun x hx => h x (List.mem_cons_of_mem o hx)
    simp only [sumW, List.map_cons, List.sum_cons] at ht ⊢
    linarith

/-- Helper: running accumulation identity of the GPU path: the weight adds
up, and `tsdf * weight` accumulates the weighted distances. -/
theorem runGpu_accum (l : List Obs) :
    (∀ o ∈ l, obsPass o ∧ 0 < o.obsW) → ∀ s : VoxelState, 0 ≤ s.weight →
      (runGpu l s).weight = s.weight + sumW l ∧
      (runGpu l s).tsdf * (runGpu l s).weight = s.tsdf * s.weight + sumGpuWS l := by
  induction l with
  | nil =>
    intro _ s _
    simp [runGpu, sumW, sumGpuWS]
  | cons o t ih =>
    intro h s hw
    obtain ⟨⟨hu0, huW, hv0, hvH, hqz, hd, htr⟩, hobs⟩ := h o (List.mem_cons_self o t)
    have ht : ∀ x ∈ t, obsPass x ∧ 0 < x.obsW := fun x hx => h x (List.mem_cons_of_mem o hx)
    obtain ⟨hWe, hTs, _, _⟩ :=
      gpuStep_update_eval o s hu0 huW hv0 hvH (le_of_lt hqz) hd htr
    have hw1 : 0 ≤ (gpuStep o s).weight := by rw [hWe]; linarith
    have hrun : runGpu (o :: t) s = runGpu t (gpuStep o s) := by
      simp [runGpu]
    obtain ⟨ihW, ihT⟩ := ih ht (gpuStep o s) hw1
    have hne : s.weight + o.obsW ≠ 0 := by positivity
    constructor
    · rw [hrun, ihW, hWe]
      simp only [sumW, List.map_cons, List.sum_cons]
      ring
    · rw [hrun, ihT, hTs, hWe, div_mul_cancel₀ _ hne]
      simp only [sumGpuWS, List.map_cons, List.sum_cons]
      ring

/-- Helper: running accumulation identity of the CPU path (with the evident
`w_new` of `integrate_tsdf`). -/
theorem runCpu_accum (l : List Obs) :
    (∀ o ∈ l, obsPass o ∧ 0 < o.obsW) → ∀ s : VoxelState, 0 ≤ s.weight →
      (runCpu l s).weight = s.weight + sumW l ∧
      (runCpu l s).tsdf * (runCpu l s).weight = s.tsdf * s.weight + sumCpuWS l := by
  induction l with
  | nil =>
    intro _ s _
    simp [runCpu, sumW, sumCpuWS]
  | cons o t ih =>
    intro h s hw
    obtain ⟨⟨hu0, huW, hv0, hvH, hqz, hd, _⟩, hobs⟩ := h o (List.mem_cons_self o t)
    have ht : ∀ x ∈ t, obsPass x ∧ 0 < x.obsW := fun x hx => h x (List.mem_cons_of_mem o hx)
    obtain ⟨hWe, hTs, _, _⟩ := cpuStep_valid_eval o s hu0 huW hv0 hvH hqz hd
    have hw1 : 0 ≤ (cpuStep o s).weight := by rw [hWe]; linarith
    have hrun : runCpu (o :: t) s = runCpu t (cpuStep o s) := by
      simp [runCpu]
    obtain ⟨ihW, ihT⟩ := ih ht (cpuStep o s) hw1
    have hne : s.weight + o.obsW ≠ 0 := by positivity
    constructor
    · rw [hrun, ihW, hWe]
      simp only [sumW, List.map_cons, List.sum_cons]
      ring
    · rw [hrun, ihT, hTs, hWe, div_mul_cancel₀ _ hne]
      simp only [sumCpuWS, List.map_cons, List.sum_cons]
      ring

/-- C1: for any nonempty sequence of integrate calls with positive
observation weights in which the voxel passes the frustum, depth-validity
(and GPU truncation) tests of every call, the final voxel weight is
`∑ w_i` and the final tsdf is `(∑ w_i * s_i) / (∑ w_i)` with the per-path
post-truncation distances `s_i`: `min(1, δ_i/margin)` on the GPU path and
the unclamped `δ_i/margin` on the CPU path (taking `integrate_tsdf`'s
`w_new` as its evidently intended definition; the shipped CPU code instead
dies on the undefined name `w_new`, whose allocation is commented out at
`fusion.py` line 247). -/
theorem tsdf_weight_weighted_mean (l : List Obs)
    (h : ∀ o ∈ l, obsPass o ∧ 0 < o.obsW) (hne : l ≠ []) :
    (runGpu l initVoxel).weight = sumW l ∧
    (runGpu l initVoxel).tsdf = sumGpuWS l / sumW l ∧
    (runCpu l initVoxel).weight = sumW l ∧
    (runCpu l initVoxel).tsdf = sumCpuWS l / sumW l := by
  have hw0 : (0:ℚ) ≤ initVoxel.weight := le_refl 0
  obtain ⟨hgW, hgT⟩ := runGpu_accum l h initVoxel hw0
  obtain ⟨hcW, hcT⟩ := runCpu_accum l h initVoxel hw0
  have hpos : 0 < sumW l := sumW_pos l hne fun o ho => (h o ho).2
  have hiw : initVoxel.weight = 0 := rfl
  rw [hiw, zero_add] at hgW hcW
  rw [hiw, mul_zero, zero_add] at hgT hcT
  refine ⟨hgW, ?_, hcW, ?_⟩
  · rw [eq_div_iff (ne_of_gt hpos), ← hgW]
    exact hgT
  · rw [eq_div_iff (ne_of_gt hpos), ← hcW]
    exact hcT

/-- C1 witness: two concrete calls with weights `1` and `3` and disparities
`1/2` and `-1/4` give final weight `4` and final tsdf
`(1*(1/2) + 3*(-1/4))/4 = -1/16` on both paths. -/
theorem tsdf_weight_weighted_mean_witness :
    (∀ o ∈ [oA, oB], obsPass o ∧ 0 < o.obsW) ∧
    ((runGpu [oA, oB] initVoxel).weight = sumW [oA, oB] ∧
     (runGpu [oA, oB] initVoxel).tsdf = sumGpuWS [oA, oB] / sumW [oA, oB] ∧
     (runCpu [oA, oB] initVoxel).weight = sumW [oA, oB] ∧
     (runCpu [oA, oB] initVoxel).tsdf = sumCpuWS [oA, oB] / sumW [oA, oB]) ∧
    sumW [oA, oB] = 4 ∧ sumGpuWS [oA, oB] = -1/4 ∧ sumCpuWS [oA, oB] = -1/4 := by
  have hmem : ∀ o ∈ [oA, oB], obsPass o ∧ 0 < o.obsW := by
    intro o ho
    simp only [List.mem_cons, List.not_mem_nil, or_false] at ho
    rcases ho with rfl | rfl <;>
      exact ⟨by norm_num [obsPass, oA, oB], by norm_num [oA, oB]⟩
  refine ⟨hmem, tsdf_weight_weighted_mean [oA, oB] hmem (by simp), ?_, ?_, ?_⟩ <;>
    norm_num [sumW, sumGpuWS, sumCpuWS, gpuDist, cpuDist, oA, oB]

/-- C2 counterexample: a voxel with valid pixel and depth but disparity
`1/5 - 1 = -4/5` below `-trunc_margin = -1/10`.  The GPU kernel's truncation
early-return (line 152) skips the weight update, while the CPU path has no
truncation gate (line 324 is commented out) and adds the observation
weight: after the same single frame the weights are `0` and `1`.  The claim
that GPU and CPU paths produce identical weight fields is therefore
false. -/
theorem gpu_cpu_weight_disagree_trunc :
    (gpuStep oTrunc initVoxel).weight = 0 ∧
    (cpuStep oTrunc initVoxel).weight = 1 ∧
    (0 : ℚ) ≠ 1 := by
  have hg := gpuStep_trunc_eval oTrunc initVoxel (by norm_num [oTrunc, oA])
    (by norm_num [oTrunc, oA]) (by norm_num [oTrunc, oA]) (by norm_num [oTrunc, oA])
    (by norm_num [oTrunc, oA]) (by norm_num [oTrunc, oA]) (by norm_num [oTrunc, oA])
  have hc := cpuStep_valid_eval oTrunc initVoxel (by norm_num [oTrunc, oA])
    (by norm_num [oTrunc, oA]) (by norm_num [oTrunc, oA]) (by norm_num [oTrunc, oA])
    (by norm_num [oTrunc, oA]) (by norm_num [oTrunc, oA])
  refine ⟨?_, ?_, by norm_num⟩
  · rw [hg]
    rfl
  · rw [hc.1]
    norm_num [initVoxel, oTrunc, oA]

/-- C2 (amended): for one frame on the same initial voxel state, the GPU
and CPU paths agree on weight, tsdf and mask at every voxel that passes the
frustum test with `qz > 0` and the depth test, whose disparity satisfies
`δ/trunc_margin ∈ [-1, 1]` (so neither the GPU truncation gate nor the GPU
clamp separates the paths), and whose mask gathers agree
(`mask_im[v,u] = mask_im[rv,ru]`, e.g. coincident depth and RGB cameras);
without `δ ≥ -margin` the weights diverge, and with distinct gather pixels
the masks diverge. -/
theorem gpu_cpu_agree_inrange (o : Obs) (s : VoxelState)
    (hu0 : 0 ≤ o.u) (huW : o.u < o.W) (hv0 : 0 ≤ o.v) (hvH : o.v < o.H)
    (hqz : 0 < o.qz) (hd : o.d ≠ 0) (hm : 0 < o.margin)
    (hlo : -o.margin ≤ o.d - o.qz) (hhi : o.d - o.qz ≤ o.margin)
    (hmask : o.mDepth = o.mRgb) :
    (gpuStep o s).weight = (cpuStep o s).weight ∧
    (gpuStep o s).tsdf = (cpuStep o s).tsdf ∧
    (gpuStep o s).mask = (cpuStep o s).mask := by
  obtain ⟨hgW, hgT, hgO, hgM⟩ :=
    gpuStep_update_eval o s hu0 huW hv0 hvH (le_of_lt hqz) hd hlo
  obtain ⟨hcW, hcT, hcO, hcM⟩ := cpuStep_valid_eval o s hu0 huW hv0 hvH hqz hd
  have hdist : gpuDist o = cpuDist o := by
    unfold gpuDist cpuDist
    exact min_eq_right ((div_le_one hm).2 hhi)
  refine ⟨?_, ?_, ?_⟩
  · rw [hgW, hcW]
  · rw [hgT, hcT, hdist]
    ring_nf
  · rw [hgM, hcM, hmask]

/-- C2 witness: the agreement at the concrete in-range observation `oA`
(disparity `1/2`, margin `1`, coincident cameras) from the initial state. -/
theorem gpu_cpu_agree_inrange_witness :
    (gpuStep oA initVoxel).weight = (cpuStep oA initVoxel).weight ∧
    (gpuStep oA initVoxel).tsdf = (cpuStep oA initVoxel).tsdf ∧
    (gpuStep oA initVoxel).mask = (cpuStep oA initVoxel).mask :=
  gpu_cpu_agree_inrange oA initVoxel (by norm_num [oA]) (by norm_num [oA])
    (by norm_num [oA]) (by norm_num [oA]) (by norm_num [oA]) (by norm_num [oA])
    (by norm_num [oA]) (by norm_num [oA]) (by norm_num [oA]) (by norm_num [oA])

/-- C3 counterexample: spec scenario S1 on the CPU path
(`margin = 1/10`, `qz = 1/100`, depth `1`): the unclamped distance is
`99/10`, and after one integrate call from the initial state the voxel's
tsdf is `99/10`, outside `[-1, 1]` and different from the initial `1`. -/
theorem cpu_tsdf_escapes_range :
    (cpuStep oS1cpu initVoxel).tsdf = 99/10 ∧
    ¬((-1 ≤ (99/10 : ℚ) ∧ (99/10 : ℚ) ≤ 1) ∨ (99/10 : ℚ) = 1) := by
  have hc := cpuStep_valid_eval oS1cpu initVoxel (by norm_num [oS1cpu, oA])
    (by norm_num [oS1cpu, oA]) (by norm_num [oS1cpu, oA]) (by norm_num [oS1cpu, oA])
    (by norm_num [oS1cpu, oA]) (by norm_num [oS1cpu, oA])
  refine ⟨?_, by norm_num⟩
  rw [hc.2.1]
  norm_num [cpuDist, initVoxel, oS1cpu, oA]

/-- Helper: one GPU step keeps `tsdf ∈ [-1, 1]` and `weight ≥ 0` when the
observation weight and truncation margin are positive. -/
theorem gpuStep_tsdf_bounds (o : Obs) (s : VoxelState)
    (hobs : 0 < o.obsW) (hm : 0 < o.margin)
    (h1 : -1 ≤ s.tsdf) (h2 : s.tsdf ≤ 1) (hw : 0 ≤ s.weight) :
    (-1 ≤ (gpuStep o s).tsdf ∧ (gpuStep o s).tsdf ≤ 1) ∧ 0 ≤ (gpuStep o s).weight := by
  by_cases hA : o.u < 0 ∨ o.u ≥ o.W ∨ o.v < 0 ∨ o.v ≥ o.H ∨ o.qz < 0
  · rw [gpuStep_skip o s hA]
    exact ⟨⟨h1, h2⟩, hw⟩
  push_neg at hA
  obtain ⟨hu0, huW, hv0, hvH, hqz⟩ := hA
  by_cases hB : o.d = 0
  · have hzd : gpuStep o s = s := by
      simp only [gpuStep, hB]
      split_ifs <;> rfl
    rw [hzd]
    exact ⟨⟨h1, h2⟩, hw⟩
  rcases lt_or_le (o.d - o.qz) (-o.margin) with hC | hC
  · rw [gpuStep_trunc_eval o s hu0 huW hv0 hvH hqz hB hC]
    exact ⟨⟨h1, h2⟩, hw⟩
  · obtain ⟨hWe, hTs, _, _⟩ := gpuStep_update_eval o s hu0 huW hv0 hvH hqz hB hC
    have hd1 : gpuDist o ≤ 1 := min_le_left _ _
    have hd2 : -1 ≤ gpuDist o := by
      refine le_min (by norm_num) ?_
      rw [le_div_iff₀ hm]
      linarith
    have hwn : 0 < s.weight + o.obsW := by linarith
    rw [hWe, hTs]
    refine ⟨⟨?_, ?_⟩, ?_⟩
    · rw [le_div_iff₀ hwn]
      have k1 := mul_le_mul_of_nonneg_right h1 hw
      have k2 := mul_le_mul_of_nonneg_left hd2 (le_of_lt hobs)
      nlinarith
    · rw [div_le_one hwn]
      have k1 := mul_le_mul_of_nonneg_right h2 hw
      have k2 := mul_le_mul_of_nonneg_left hd1 (le_of_lt hobs)
      nlinarith
    · linarith

/-- Helper: the GPU invariant propagated along any call sequence. -/
theorem runGpu_tsdf_bounds (l : List Obs) :
    (∀ o ∈ l, 0 < o.obsW ∧ 0 < o.margin) →
    ∀ s : VoxelState, -1 ≤ s.tsdf → s.tsdf ≤ 1 → 0 ≤ s.weight →
      (-1 ≤ (runGpu l s).tsdf ∧ (runGpu l s).tsdf ≤ 1) ∧ 0 ≤ (runGpu l s).weight := by
  induction l with
  | nil =>
    intro _ s h1 h2 hw
    exact ⟨⟨h1, h2⟩, hw⟩
  | cons o t ih =>
    intro h s h1 h2 hw
    obtain ⟨hobs, hm⟩ := h o (List.mem_cons_self o t)
    have ht : ∀ x ∈ t, 0 < x.obsW ∧ 0 < x.margin := fun x hx => h x (List.mem_cons_of_mem o hx)
    obtain ⟨⟨g1, g2⟩, gw⟩ := gpuStep_tsdf_bounds o s hobs hm h1 h2 hw
    have hrun : runGpu (o :: t) s = runGpu t (gpuStep o s) := by simp [runGpu]
    rw [hrun]
    exact ih ht (gpuStep o s) g1 g2 gw

/-- C3 (amended): on the GPU path, after any sequence of integrate calls
with positive observation weight and positive truncation margin, every
voxel tsdf lies in `[-1, 1]` (the initial value `1` included); the CPU path
does not satisfy the claimed invariant because its distance is never
clamped. -/
theorem gpu_tsdf_in_range (l : List Obs) (h : ∀ o ∈ l, 0 < o.obsW ∧ 0 < o.margin) :
    -1 ≤ (runGpu l initVoxel).tsdf ∧ (runGpu l initVoxel).tsdf ≤ 1 :=
  (runGpu_tsdf_bounds l h initVoxel (by norm_num [initVoxel]) (le_refl 1) (le_refl 0)).1

/-- C3 witness: the invariant evaluated on the concrete two-call sequence
`[oA, oB]`. -/
theorem gpu_tsdf_in_range_witness :
    -1 ≤ (runGpu [oA, oB] initVoxel).tsdf ∧ (runGpu [oA, oB] initVoxel).tsdf ≤ 1 :=
  gpu_tsdf_in_range [oA, oB] (by
    intro o ho
    simp only [List.mem_cons, List.not_mem_nil, or_false] at ho
    rcases ho with rfl | rfl <;> exact ⟨by norm_num [oA, oB], by norm_num [oA, oB]⟩)

/-- C4 counterexample: spec scenario S6 on the CPU path with
`trunc_margin = 1/10`: depths `1/2` and `2` at `qz = 1/100` leave
`occl = max((1/2 - 1/100)/(1/10), (2 - 1/100)/(1/10)) = 199/10`, not the
claimed raw `max(0.49, 1.99) = 1.99`: the CPU occlusion update
(`fusion.py` line 251) uses the distance NORMALISED by the truncation
margin, not the raw disparity. -/
theorem cpu_occl_normalized_counterexample :
    (runCpu [oOcclA, oOcclB] initVoxel).occl = 199/10 ∧
    (199/10 : ℚ) ≠ 199/100 := by
  have hrun : runCpu [oOcclA, oOcclB] initVoxel = cpuStep oOcclB (cpuStep oOcclA initVoxel) := by
    simp [runCpu]
  have hA := cpuStep_valid_eval oOcclA initVoxel (by norm_num [oOcclA, oA])
    (by norm_num [oOcclA, oA]) (by norm_num [oOcclA, oA]) (by norm_num [oOcclA, oA])
    (by norm_num [oOcclA, oA]) (by norm_num [oOcclA, oA])
  have hB := cpuStep_valid_eval oOcclB (cpuStep oOcclA initVoxel) (by norm_num [oOcclB, oA])
    (by norm_num [oOcclB, oA]) (by norm_num [oOcclB, oA]) (by norm_num [oOcclB, oA])
    (by norm_num [oOcclB, oA]) (by norm_num [oOcclB, oA])
  refine ⟨?_, by norm_num⟩
  rw [hrun, hB.2.2.1, hA.2.2.1]
  norm_num [cpuDist, initVoxel, oOcclA, oOcclB, oA]

/-- C4 (amended): on the GPU path, every voxel passing the frustum and
depth-validity tests has its occlusion field updated to
`max(occl, δ)` with the raw disparity `δ = d - qz` in metres (before the
truncation test, hence truncated or not); the CPU path instead uses
`max(occl, δ/trunc_margin)`, which matches only when `trunc_margin = 1`. -/
theorem gpu_occl_raw_max (o : Obs) (s : VoxelState)
    (hu0 : 0 ≤ o.u) (huW : o.u < o.W) (hv0 : 0 ≤ o.v) (hvH : o.v < o.H)
    (hqz : 0 ≤ o.qz) (hd : o.d ≠ 0) :
    (gpuStep o s).occl = max s.occl (o.d - o.qz) :=
  (gpuStep_occl_mask_eval o s hu0 huW hv0 hvH hqz hd).1

/-- C4 witness: the GPU update at the second S6 frame (depth `2`,
`qz = 1/100`) from the initial state gives the raw disparity maximum,
whose value is the spec's `1.99`. -/
theorem gpu_occl_raw_max_witness :
    (gpuStep oOcclB initVoxel).occl = max initVoxel.occl (oOcclB.d - oOcclB.qz) ∧
    max initVoxel.occl (oOcclB.d - oOcclB.qz) = 199/100 :=
  ⟨gpu_occl_raw_max oOcclB initVoxel (by norm_num [oOcclB, oA]) (by norm_num [oOcclB, oA])
    (by norm_num [oOcclB, oA]) (by norm_num [oOcclB, oA]) (by norm_num [oOcclB, oA])
    (by norm_num [oOcclB, oA]),
   by norm_num [initVoxel, oOcclB, oA]⟩

/-- Helper: the GPU path leaves any state unchanged along a sequence of
skipped observations. -/
theorem runGpu_skip_all (l : List Obs) :
    (∀ o ∈ l, o.u < 0 ∨ o.u ≥ o.W ∨ o.v < 0 ∨ o.v ≥ o.H ∨ o.qz < 0) →
    ∀ s : VoxelState, runGpu l s = s := by
  induction l with
  | nil => intro _ s; rfl
  | cons o t ih =>
    intro h s
    have hrun : runGpu (o :: t) s = runGpu t (gpuStep o s) := by simp [runGpu]
    rw [hrun, gpuStep_skip o s (h o (List.mem_cons_self o t))]
    exact ih (fun x hx => h x (List.mem_cons_of_mem o hx)) s

/-- Helper: the CPU path leaves any state unchanged along a sequence of
skipped observations. -/
theorem runCpu_skip_all (l : List Obs) :
    (∀ o ∈ l, o.u < 0 ∨ o.u ≥ o.W ∨ o.v < 0 ∨ o.v ≥ o.H ∨ o.qz < 0) →
    ∀ s : VoxelState, runCpu l s = s := by
  induction l with
  | nil => intro _ s; rfl
  | cons o t ih =>
    intro h s
    have hrun : runCpu (o :: t) s = runCpu t (cpuStep o s) := by simp [runCpu]
    rw [hrun, cpuStep_skip o s (h o (List.mem_cons_self o t))]
    exact ih (fun x hx => h x (List.mem_cons_of_mem o hx)) s

/-- C6 counterexample: an observation with `qz = 0` exactly and an in-bounds
pixel (a voxel at the depth-camera centre).  The claim's premise
"`qz ≤ 0` in every frame" holds, yet the GPU kernel — whose frustum test
only rejects `qz < 0` (line 138) — integrates the voxel and changes its
weight from 0 to 1.  (The CPU path's `pix_z > 0` test does skip it.) -/
theorem gpu_qz_zero_touches_voxel :
    oQz0.qz ≤ 0 ∧ (runGpu [oQz0] initVoxel).weight = 1 ∧ initVoxel.weight = 0 := by
  have hrun : runGpu [oQz0] initVoxel = gpuStep oQz0 initVoxel := by simp [runGpu]
  have h := gpuStep_update_eval oQz0 initVoxel (by norm_num [oQz0, oA])
    (by norm_num [oQz0, oA]) (by norm_num [oQz0, oA]) (by norm_num [oQz0, oA])
    (by norm_num [oQz0, oA]) (by norm_num [oQz0, oA]) (by norm_num [oQz0, oA])
  refine ⟨by norm_num [oQz0, oA], ?_, rfl⟩
  rw [hrun, h.1]
  norm_num [initVoxel, oQz0, oA]

/-- C6 (amended): a voxel whose pixel falls outside `[0,W) × [0,H)` or
whose camera depth satisfies `qz < 0` in every integrated frame keeps all
five fields at their initial values `(1, 0, -100, 0, 0)` on both paths (on
the CPU path `qz = 0` is also skipped, but the GPU kernel only rejects
`qz < 0`). -/
theorem untouched_outside_frustum (l : List Obs)
    (h : ∀ o ∈ l, o.u < 0 ∨ o.u ≥ o.W ∨ o.v < 0 ∨ o.v ≥ o.H ∨ o.qz < 0) :
    runGpu l initVoxel = initVoxel ∧ runCpu l initVoxel = initVoxel ∧
    initVoxel.tsdf = 1 ∧ initVoxel.weight = 0 ∧ initVoxel.occl = -100 ∧
    initVoxel.color = 0 ∧ initVoxel.mask = 0 :=
  ⟨runGpu_skip_all l h initVoxel, runCpu_skip_all l h initVoxel,
    rfl, rfl, rfl, rfl, rfl⟩

/-- C6 witness: a single frame in which the voxel's pixel is `u = -1`. -/
theorem untouched_outside_frustum_witness :
    runGpu [oOut] initVoxel = initVoxel ∧ runCpu [oOut] initVoxel = initVoxel ∧
    initVoxel.tsdf = 1 ∧ initVoxel.weight = 0 ∧ initVoxel.occl = -100 ∧
    initVoxel.color = 0 ∧ initVoxel.mask = 0 :=
  untouched_outside_frustum [oOut] (by
    intro o ho
    simp only [List.mem_cons, List.not_mem_nil, or_false] at ho
    subst ho
    left
    norm_num [oOut, oA])

/-- Helper: the computed dimensions of the bounds `[[0,0],[0,1],[0,1]]` at
voxel size 1 are `(0, 1, 1)`. -/
theorem cbnds_dims :
    volDimAxis cbnds 1 0 = 0 ∧ volDimAxis cbnds 1 1 = 1 ∧ volDimAxis cbnds 1 2 = 1 := by
  refine ⟨?_, ?_, ?_⟩ <;>
    norm_num [volDimAxis, bndAt, cbnds]

/-- C8 counterexample: the bounds `[[0,0],[0,1],[0,1]]` have `min = max` on
the first axis, yet construction with voxel size 1 succeeds — the only
validation in `__init__` is the shape assert (line 47); `ceil(0/1) = 0` is a
legal `np.ones` dimension, so a grid (with zero extent on that axis) is
created.  The claim that construction fails whenever `min ≥ max` on some
axis is therefore false. -/
theorem construction_min_eq_max_succeeds :
    bndAt cbnds 0 0 = bndAt cbnds 0 1 ∧ (mkTSDFVolume cbnds 1).isSome = true := by
  obtain ⟨h0, h1, h2⟩ := cbnds_dims
  constructor
  · norm_num [bndAt, cbnds]
  · have hshape : shapeOkB cbnds = true := by decide
    unfold mkTSDFVolume
    rw [if_pos hshape, if_neg (one_ne_zero), if_neg]
    · rfl
    · push_neg
      rw [h0, h1, h2]
      norm_num

/-- C8 (amended): construction fails on a shape violation, but validates
neither `min < max` nor `voxel_size > 0`: whenever the bounds have shape
(3,2), the voxel size is positive and every axis has `min ≤ max`, the
constructor succeeds with `vol_dim[i] = ceil((max_i - min_i)/voxel_size)`
— in particular when `min = max` on some axis (dimension 0).  Failures
besides the shape assert happen only incidentally, when a computed
dimension is negative (or the voxel size is 0), via the `np.ones` error. -/
theorem construction_succeeds_of_le_bounds (bnds : List (List ℚ)) (vs : ℚ)
    (hshape : shapeOkB bnds = true) (hvs : 0 < vs)
    (hle : ∀ i < 3, bndAt bnds i 0 ≤ bndAt bnds i 1) :
    mkTSDFVolume bnds vs =
      some ⟨volDimAxis bnds vs 0, volDimAxis bnds vs 1, volDimAxis bnds vs 2⟩ := by
  have hnz : vs ≠ 0 := ne_of_gt hvs
  have hdim : ∀ i < 3, 0 ≤ volDimAxis bnds vs i := by
    intro i hi
    unfold volDimAxis
    have hd := hle i hi
    have hq : 0 ≤ (bndAt bnds i 1 - bndAt bnds i 0) / vs :=
      div_nonneg (by linarith) (le_of_lt hvs)
    exact Int.ceil_nonneg hq
  unfold mkTSDFVolume
  rw [if_pos hshape, if_neg hnz, if_neg]
  push_neg
  exact ⟨hdim 0 (by norm_num), hdim 1 (by norm_num), hdim 2 (by norm_num)⟩

/-- C8 witness: the amended statement at the concrete bounds
`[[0,0],[0,1],[0,1]]` with voxel size 1. -/
theorem construction_succeeds_of_le_bounds_witness :
    shapeOkB cbnds = true ∧ (0 : ℚ) < 1 ∧
    (∀ i < 3, bndAt cbnds i 0 ≤ bndAt cbnds i 1) ∧
    mkTSDFVolume cbnds 1 =
      some ⟨volDimAxis cbnds 1 0, volDimAxis cbnds 1 1, volDimAxis cbnds 1 2⟩ := by
  have hle : ∀ i < 3, bndAt cbnds i 0 ≤ bndAt cbnds i 1 := by
    intro i hi
    interval_cases i <;> norm_num [bndAt, cbnds]
  exact ⟨by decide, by norm_num, hle,
    construction_succeeds_of_le_bounds cbnds 1 (by decide) (by norm_num) hle⟩

/-- C9: the GPU dispatch bug.  For `vol_dim = (1,1,1)` (`N = 1`) and 1024
threads per block, the dispatch chooses grid `(1,1,1)` and a single launch;
the thread with `threadIdx.x = 1` computes `voxel_idx = 1 = N`, and the
kernel's guard `voxel_idx > N` (line 114) does NOT make it return even
though the only valid indices are `< N`: its subsequent reads and writes of
`mask_vol[1]`, `occl_vol[1]`, `weight_vol[1]`, `tsdf_vol[1]` are out of
bounds whenever the phantom voxel passes the frustum and depth tests. -/
theorem kernel_guard_off_by_one :
    gridDimX 2147483647 1 1024 = 1 ∧
    gridDimY 2147483647 65535 1 1024 = 1 ∧
    gridDimZ 2147483647 65535 65535 1 1024 = 1 ∧
    nGpuLoops 1 1 1 1 1024 = 1 ∧
    voxelIdx 0 1 1 1 1024 0 0 0 1 = 1 ∧
    (1 : ℕ) < 1024 ∧
    kernelGuardSkips (voxelIdx 0 1 1 1 1024 0 0 0 1) 1 = false ∧
    ¬ voxelIdx 0 1 1 1 1024 0 0 0 1 < 1 := by
  decide

/-- C10 counterexample: the world point `(0,0,1)` projects to the in-bounds
depth pixel `(0,0)` of a 1x1 image with `pix_z = 1 > 0` (so with any
non-zero depth at that pixel the voxel is in `valid_pts`), but under an RGB
pose whose inverse shifts camera x by `+5` its RGB pixel is `(5,0)`,
outside `[0,1) × [0,1)`: the CPU path's colour and mask gathers at the RGB
pixel (`fusion.py` lines 352 and 363) are not bounds-checked and are out of
bounds here. -/
theorem rgb_pixel_out_of_bounds :
    inBounds 1 1 (cpuDepthPix mId intrId pC10) ∧ 0 < cpuPixZ mId pC10 ∧
    (cpuRgbPix mShift intrId pC10).1 = 5 ∧
    ¬ inBounds 1 1 (cpuRgbPix mShift intrId pC10) := by
  have hdp : cpuDepthPix mId intrId pC10 = (0, 0) := by
    norm_num [cpuDepthPix, cam2pix, rigidApply, mId, intrId, pC10, roundQ]
  have hrp : cpuRgbPix mShift intrId pC10 = (5, 0) := by
    norm_num [cpuRgbPix, cam2pix, rigidApply, mShift, intrId, pC10, roundQ]
  refine ⟨?_, ?_, ?_, ?_⟩
  · rw [hdp]
    norm_num [inBounds]
  · norm_num [cpuPixZ, rigidApply, mId, pC10]
  · rw [hrp]
  · rw [hrp]
    norm_num [inBounds]

/-- C10 (amended): the CPU path applies no bounds re-check after the RGB
projection, so the colour/mask gathers are in bounds only under an extra
assumption; in particular they are in bounds whenever the RGB camera
coincides with the depth camera (same inverted pose and intrinsics), since
then the RGB pixel equals the already-bounds-checked depth pixel.  With
distinct cameras the gather pixel can leave the image (see the
counterexample). -/
theorem rgb_pixel_inbounds_same_camera (invCamPose invRgbPose : Mat34)
    (camIntr rgbIntr : Intr) (W H : ℤ) (p : ℚ × ℚ × ℚ)
    (hpose : invRgbPose = invCamPose) (hintr : rgbIntr = camIntr)
    (hin : inBounds W H (cpuDepthPix invCamPose camIntr p)) :
    inBounds W H (cpuRgbPix invRgbPose rgbIntr p) := by
  subst hpose
  subst hintr
  exact hin

/-- C10 witness: the same-camera bound transfer at the concrete
configuration of the counterexample's depth camera. -/
theorem rgb_pixel_inbounds_same_camera_witness :
    mId = mId ∧ intrId = intrId ∧
    inBounds 1 1 (cpuDepthPix mId intrId pC10) ∧
    inBounds 1 1 (cpuRgbPix mId intrId pC10) := by
  have hdp : cpuDepthPix mId intrId pC10 = (0, 0) := by
    norm_num [cpuDepthPix, cam2pix, rigidApply, mId, intrId, pC10, roundQ]
  have hin : inBounds 1 1 (cpuDepthPix mId intrId pC10) := by
    rw [hdp]
    norm_num [inBounds]
  exact ⟨rfl, rfl, hin,
    rgb_pixel_inbounds_same_camera mId mId intrId intrId 1 1 pC10 rfl rfl hin⟩
